import Mathlib

/-!
Shallow embedding of the core of the Mython interpreter: the runtime object
model (`runtime.cpp`), the statement evaluator (`statement.cpp`), and the
indentation-aware lexer.  Every definition below is translated from the
corresponding C++ source function; C++ `std::map` insertion is modelled by
"last insertion wins" lookup, raw pointers to class instances by indices
into an explicit heap, thrown exceptions by an explicit exception variant
threaded through evaluation, and C++ non-termination by a fuel parameter.
-/

namespace Mython

/-- Runtime values held by an `ObjectHolder`.  An empty holder (`None`) is the
`none` variant; `num`/`str`/`bool` are the `runtime::Number`, `runtime::String`
and `runtime::Bool` value objects; `ref i` is a `runtime::ClassInstance`
living in heap cell `i`; `classVal k` is a `runtime::Class` object (the
payload `k` only identifies which class object it is). -/
inductive Value where
  | none
  | num (n : Int)
  | str (s : String)
  | bool (b : Bool)
  | ref (i : Nat)
  | classVal (k : Nat)
deriving DecidableEq

/-- `ObjectHolder::TryAs<runtime::Bool>`. -/
def tryAsBool : Value → Option Bool
  | .bool b => some b
  | _ => Option.none

/-- `ObjectHolder::TryAs<runtime::Number>`. -/
def tryAsNumber : Value → Option Int
  | .num n => some n
  | _ => Option.none

/-- `ObjectHolder::TryAs<runtime::String>`. -/
def tryAsString : Value → Option String
  | .str s => some s
  | _ => Option.none

/-- `runtime::IsTrue` (runtime.cpp lines 46-61): an empty holder is false,
then the `Bool`, `Number` and `String` try-as chain, and every other object
kind is false. -/
def IsTrue (object : Value) : Bool :=
  if object = Value.none then false
  else
    match tryAsBool object with
    | some b => b == true
    | Option.none =>
      match tryAsNumber object with
      | some n => !(n == 0)
      | Option.none =>
        match tryAsString object with
        | some s => !(String.isEmpty s)
        | Option.none => false

/-- Statement tree (`ast` namespace of statement.cpp).  A C++ `unique_ptr`
child that the source tests for null (`object_` of `MethodCall`, the operand
pointers of the binary and unary operators) is an `Option Stmt`; children the
source dereferences unconditionally are plain `Stmt`.

`const` is the one node not taken from statement.cpp.  Modelled from the
spec: §3.5 lists the compound statement kinds only; the literal-constant
statements the parser produces for `Number`/`String`/`Bool`/`None` literals
are modelled as a node holding a fixed value that `Execute` returns
unchanged.

`newInstance i args` models `ast::NewInstance`: the C++ node embeds a
`runtime::ClassInstance` member `class_inst_` by value; here that embedded
instance is heap cell `i`, created before execution, and every execution
returns a non-owning reference (`Value.ref i`) to that same cell. -/
inductive Stmt where
  | const (v : Value)
  | assignment (var : String) (rv : Stmt)
  | variableValue (dottedIds : List String)
  | methodCall (object : Option Stmt) (method : String) (args : List Stmt)
  | add (lhs rhs : Option Stmt)
  | sub (lhs rhs : Option Stmt)
  | mult (lhs rhs : Option Stmt)
  | div (lhs rhs : Option Stmt)
  | compound (stmts : List Stmt)
  | ret (statement : Stmt)
  | fieldAssignment (objectIds : List String) (fieldName : String) (rv : Stmt)
  | ifElse (condition ifBody : Stmt) (elseBody : Option Stmt)
  | orOp (lhs rhs : Option Stmt)
  | andOp (lhs rhs : Option Stmt)
  | notOp (argument : Option Stmt)
  | newInstance (inst : Nat) (args : List Stmt)
  | methodBody (body : Stmt)

/-- `runtime::Method`: a name, the formal parameter names, and the body
statement. -/
structure Method where
  name : String
  formalParams : List String
  body : Stmt

/-- `runtime::Class`: a name, the ordered list of declared methods
(`methods_`), and an optional parent pointer (`parent_`). -/
inductive Class where
  | mk (name : String) (methods : List Method) (parent : Option Class)

/-- The declared-method vector `methods_` of a class. -/
def Class.methods : Class → List Method
  | .mk _ ms _ => ms

/-- The parent pointer `parent_` of a class. -/
def Class.parent : Class → Option Class
  | .mk _ _ p => p

/-- The insertion sequence of the `names_methods_` map built by
`Class::Class` (runtime.cpp lines 104-116): first the **declared** methods
of the parent (`parent_->methods_`), then the class's own declared methods;
for each name the last insertion wins. -/
def Class.indexInsertions (c : Class) : List Method :=
  (match c.parent with
   | some p => p.methods
   | Option.none => []) ++ c.methods

/-- Lookup of `key` in a `std::map` populated by assigning the methods of
`ms` in order: the last method of `ms` named `key`, if any. -/
def lastDecl (ms : List Method) (key : String) : Option Method :=
  ms.reverse.find? (fun m => m.name == key)

/-- `Class::GetMethod` (runtime.cpp lines 118-123): consult the
`names_methods_` map; absent names give a null pointer. -/
def Class.GetMethod (c : Class) (name : String) : Option Method :=
  lastDecl c.indexInsertions name

/-- `ClassInstance::HasMethod` (runtime.cpp lines 71-73): the resolved
method exists and has exactly `argumentCount` formal parameters. -/
def Class.HasMethod (c : Class) (method : String) (argumentCount : Nat) : Bool :=
  match c.GetMethod method with
  | some m => m.formalParams.length == argumentCount
  | Option.none => false

/-- A `runtime::Closure`: a name-to-holder map, modelled as an association
list whose `operator[]` assignment replaces the existing entry or appends. -/
abbrev Closure := List (String × Value)

/-- Map lookup (`find`). -/
def clookup (c : Closure) (k : String) : Option Value :=
  match c with
  | [] => Option.none
  | (k', v') :: rest => if k' = k then some v' else clookup rest k

/-- Map assignment `closure[k] = v`. -/
def cupdate (c : Closure) (k : String) (v : Value) : Closure :=
  match c with
  | [] => [(k, v)]
  | (k', v') :: rest => if k' = k then (k, v) :: rest else (k', v') :: cupdate rest k v

/-- A live `runtime::ClassInstance`: its class and its mutable field map. -/
structure InstData where
  cls : Class
  fields : Closure

/-- The instances alive during evaluation; `Value.ref i` points at cell `i`. -/
abbrev Heap := List InstData

/-- Exceptions thrown during evaluation: `err` is a thrown
`std::runtime_error`/`std::logic_error` with its message, `retVal` is the
`ObjectHolder` thrown by `Return::Execute`, `crash` is a null-pointer
dereference (undefined behavior in the C++), and `fuel` reports exhaustion
of the modelling fuel (the C++ has no counterpart; it stands for a
computation still running). -/
inductive Exc where
  | err (msg : String)
  | retVal (v : Value)
  | crash
  | fuel

/-- Whether an exception is the `Return` non-local exit. -/
def Exc.isRet : Exc → Bool
  | .retVal _ => true
  | _ => false

/-- Result of executing one statement. -/
inductive Outcome where
  | ok (v : Value)
  | exc (e : Exc)

/-- Outcome of evaluating a list of argument statements. -/
inductive ArgsOutcome where
  | ok (vs : List Value)
  | exc (e : Exc)

/-- The loop of `VariableValue::Execute` (statement.cpp lines 38-48): look
each name up in the current map, failing when absent; remember the fetched
value; when the fetched value is a `ClassInstance`, the current map becomes
that instance's field map, otherwise it is left unchanged. -/
def varLoop (h : Heap) : List String → Closure → Value → Outcome
  | [], _, result => .ok result
  | name :: rest, cur, _ =>
    match clookup cur name with
    | Option.none => .exc (.err "Invalid argument name")
    | some v =>
      match v with
      | .ref i =>
        match List.get? h i with
        | some inst => varLoop h rest inst.fields v
        | Option.none => varLoop h rest cur v
      | _ => varLoop h rest cur v

/-- `VariableValue::Execute` (statement.cpp lines 34-53). -/
def variableValueRun (ids : List String) (c : Closure) (h : Heap) : Outcome :=
  match ids with
  | [] => .exc (.err "No arguments specified")
  | _ :: _ => varLoop h ids c Value.none

/-- Seed the callee closure of `ClassInstance::Call` (runtime.cpp lines
93-99): `self` bound to a non-owning holder of the instance, then each
formal parameter bound to the corresponding actual argument. -/
def callClosure (i : Nat) (params : List String) (args : List Value) : Closure :=
  List.foldl (fun acc pa => cupdate acc pa.1 pa.2)
    [("self", Value.ref i)] (params.zip args)

mutual

/-- `Statement::Execute` for every statement kind of statement.cpp, with a
fuel bound standing for the unbounded C++ recursion.  A state is the current
closure (the C++ `Closure&`) plus the heap of live instances; a thrown C++
exception is an `Outcome.exc` carrying the state at the throw point, since
reference mutations made before a throw persist.  A `Value.ref` whose cell
is missing from the heap models a dangling `ClassInstance*`, which no
reachable execution produces; it is mapped to `Exc.crash`. -/
def Execute : Nat → Stmt → Closure → Heap → Outcome × Closure × Heap
  | 0, _, c, h => (.exc .fuel, c, h)
  | n + 1, stmt, c, h =>
    match stmt with
    | .const v => (.ok v, c, h)
    | .assignment var rv =>
      match Execute n rv c h with
      | (.ok v, c1, h1) => (.ok v, cupdate c1 var v, h1)
      | r => r
    | .variableValue ids => (variableValueRun ids c h, c, h)
    | .methodCall object method args =>
      match object with
      | Option.none => (.ok Value.none, c, h)
      | some ostmt =>
        match Execute n ostmt c h with
        | (.ok v, c1, h1) =>
          match ExecuteArgs n args c1 h1 with
          | (.ok vs, c2, h2) =>
            match v with
            | .ref i => Call n i method vs c2 h2
            | _ => (.exc .crash, c2, h2)
          | (.exc e, c2, h2) => (.exc e, c2, h2)
        | r => r
    | .add lhs rhs =>
      match lhs, rhs with
      | some l, some r =>
        match Execute n l c h with
        | (.ok lv, c1, h1) =>
          match Execute n r c1 h1 with
          | (.ok rv, c2, h2) =>
            match tryAsNumber lv, tryAsNumber rv with
            | some a, some b => (.ok (.num (a + b)), c2, h2)
            | _, _ =>
              match tryAsString lv, tryAsString rv with
              | some a, some b => (.ok (.str (a ++ b)), c2, h2)
              | _, _ =>
                match lv with
                | .ref i =>
                  match List.get? h2 i with
                  | some inst =>
                    if inst.cls.HasMethod "__add__" 1 then
                      Call n i "__add__" [rv] c2 h2
                    else (.exc (.err "Wrong types for add operation"), c2, h2)
                  | Option.none => (.exc .crash, c2, h2)
                | _ => (.exc (.err "Wrong types for add operation"), c2, h2)
          | r2 => r2
        | r1 => r1
      | _, _ => (.exc (.err "null operands are not supported"), c, h)
    | .sub lhs rhs =>
      match lhs, rhs with
      | some l, some r =>
        match Execute n l c h with
        | (.ok lv, c1, h1) =>
          match Execute n r c1 h1 with
          | (.ok rv, c2, h2) =>
            match tryAsNumber lv, tryAsNumber rv with
            | some a, some b => (.ok (.num (a - b)), c2, h2)
            | _, _ => (.exc (.err "Wrong types for sub operation"), c2, h2)
          | r2 => r2
        | r1 => r1
      | _, _ => (.exc (.err "null operands are not supported"), c, h)
    | .mult lhs rhs =>
      match lhs, rhs with
      | some l, some r =>
        match Execute n l c h with
        | (.ok lv, c1, h1) =>
          match Execute n r c1 h1 with
          | (.ok rv, c2, h2) =>
            match tryAsNumber lv, tryAsNumber rv with
            | some a, some b => (.ok (.num (a * b)), c2, h2)
            | _, _ => (.exc (.err "Wrong types for mult operation"), c2, h2)
          | r2 => r2
        | r1 => r1
      | _, _ => (.exc (.err "null operands are not supported"), c, h)
    | .div lhs rhs =>
      match lhs, rhs with
      | some l, some r =>
        match Execute n l c h with
        | (.ok lv, c1, h1) =>
          match Execute n r c1 h1 with
          | (.ok rv, c2, h2) =>
            match tryAsNumber lv, tryAsNumber rv with
            | some a, some b =>
              if b == 0 then (.exc (.err "Division by zero"), c2, h2)
              else (.ok (.num (Int.tdiv a b)), c2, h2)
            | _, _ => (.exc (.err "Wrong types for div operation"), c2, h2)
          | r2 => r2
        | r1 => r1
      | _, _ => (.exc (.err "null operands are not supported"), c, h)
    | .compound stmts => ExecuteSeq n stmts c h
    | .ret statement =>
      match Execute n statement c h with
      | (.ok v, c1, h1) => (.exc (.retVal v), c1, h1)
      | r => r
    | .fieldAssignment ids fieldName rv =>
      match variableValueRun ids c h with
      | .ok objv =>
        match Execute n rv c h with
        | (.ok val, c1, h1) =>
          match objv with
          | .ref i =>
            match List.get? h1 i with
            | some inst =>
              (.ok val, c1, h1.set i ⟨inst.cls, cupdate inst.fields fieldName val⟩)
            | Option.none => (.exc .crash, c1, h1)
          | _ => (.exc .crash, c1, h1)
        | r1 => r1
      | .exc e => (.exc e, c, h)
    | .ifElse condition ifBody elseBody =>
      match Execute n condition c h with
      | (.ok cv, c1, h1) =>
        if IsTrue cv then Execute n ifBody c1 h1
        else
          match elseBody with
          | some e => Execute n e c1 h1
          | Option.none => (.ok Value.none, c1, h1)
      | r => r
    | .orOp lhs rhs =>
      match lhs, rhs with
      | some l, some r =>
        match Execute n l c h with
        | (.ok lv, c1, h1) =>
          match Execute n r c1 h1 with
          | (.ok rv, c2, h2) =>
            if IsTrue lv then (.ok (.bool true), c2, h2)
            else if IsTrue rv then (.ok (.bool true), c2, h2)
            else (.ok (.bool false), c2, h2)
          | r2 => r2
        | r1 => r1
      | _, _ => (.exc (.err "null operands are not supported"), c, h)
    | .andOp lhs rhs =>
      match lhs, rhs with
      | some l, some r =>
        match Execute n l c h with
        | (.ok lv, c1, h1) =>
          match Execute n r c1 h1 with
          | (.ok rv, c2, h2) =>
            if IsTrue lv && IsTrue rv then (.ok (.bool true), c2, h2)
            else (.ok (.bool false), c2, h2)
          | r2 => r2
        | r1 => r1
      | _, _ => (.exc (.err "null operands are not supported"), c, h)
    | .notOp argument =>
      match argument with
      | some a =>
        match Execute n a c h with
        | (.ok v, c1, h1) => (.ok (.bool (!IsTrue v)), c1, h1)
        | r => r
      | Option.none => (.exc (.err "null operands are not supported"), c, h)
    | .newInstance i args =>
      match ExecuteArgs n args c h with
      | (.ok vs, c1, h1) =>
        match List.get? h1 i with
        | some inst =>
          if inst.cls.HasMethod "__init__" args.length then
            match Call n i "__init__" vs c1 h1 with
            | (.ok _, c2, h2) => (.ok (.ref i), c2, h2)
            | r2 => r2
          else (.ok (.ref i), c1, h1)
        | Option.none => (.exc .crash, c1, h1)
      | (.exc e, c1, h1) => (.exc e, c1, h1)
    | .methodBody body =>
      match Execute n body c h with
      | (.ok _, c1, h1) => (.ok Value.none, c1, h1)
      | (.exc (.retVal v), c1, h1) => (.ok v, c1, h1)
      | r => r
termination_by n stmt c h => (n, 0, 0)

/-- Left-to-right evaluation of an argument list (`MethodCall::Execute` and
`NewInstance::Execute` loops). -/
def ExecuteArgs : Nat → List Stmt → Closure → Heap → ArgsOutcome × Closure × Heap
  | _, [], c, h => (.ok [], c, h)
  | n, s :: rest, c, h =>
    match Execute n s c h with
    | (.ok v, c1, h1) =>
      match ExecuteArgs n rest c1 h1 with
      | (.ok vs, c2, h2) => (.ok (v :: vs), c2, h2)
      | r2 => r2
    | (.exc e, c1, h1) => (.exc e, c1, h1)
termination_by n l c h => (n, 2, l.length)

/-- `Compound::Execute` (statement.cpp lines 209-214): run each statement in
order, discarding its value; the compound itself yields `None`. -/
def ExecuteSeq : Nat → List Stmt → Closure → Heap → Outcome × Closure × Heap
  | _, [], c, h => (.ok Value.none, c, h)
  | n, s :: rest, c, h =>
    match Execute n s c h with
    | (.ok _, c1, h1) => ExecuteSeq n rest c1 h1
    | r => r
termination_by n l c h => (n, 2, l.length)

/-- `ClassInstance::Call` (runtime.cpp lines 86-102) on the instance in heap
cell `i`: require a method of matching arity (else "Not implemented"), build
the callee closure, and execute the body; the caller's closure is untouched
by the callee. -/
def Call : Nat → Nat → String → List Value → Closure → Heap → Outcome × Closure × Heap
  | n, i, method, actualArgs, c, h =>
    match List.get? h i with
    | some inst =>
      if inst.cls.HasMethod method actualArgs.length then
        match inst.cls.GetMethod method with
        | some m =>
          let r := Execute n m.body (callClosure i m.formalParams actualArgs) h
          (r.1, c, r.2.2)
        | Option.none => (.exc (.err "Not implemented"), c, h)
      else (.exc (.err "Not implemented"), c, h)
    | Option.none => (.exc .crash, c, h)
termination_by n i method actualArgs c h => (n, 1, 0)

end

/-- A `parse::Token` (the `token_type` variants of the lexer). -/
inductive Tok where
  | number (value : Int)
  | id (value : String)
  | str (value : String)
  | chr (value : Char)
  | kwClass
  | kwReturn
  | kwIf
  | kwElse
  | kwDef
  | newline
  | kwPrint
  | indent
  | dedent
  | kwAnd
  | kwOr
  | kwNot
  | eq
  | notEq
  | lessOrEq
  | greaterOrEq
  | kwNone
  | kwTrue
  | kwFalse
  | eof
deriving DecidableEq

/-- `std::isalpha` in the C locale on the ASCII inputs the lexer reads. -/
def isAsciiAlpha (c : Char) : Bool :=
  ('a' ≤ c && c ≤ 'z') || ('A' ≤ c && c ≤ 'Z')

/-- `std::isdigit`. -/
def isAsciiDigit (c : Char) : Bool :=
  '0' ≤ c && c ≤ '9'

/-- `std::isalnum`. -/
def isAsciiAlnum (c : Char) : Bool :=
  isAsciiAlpha c || isAsciiDigit c

/-- `std::ispunct`: printable, neither alphanumeric nor the space. -/
def isPunct (c : Char) : Bool :=
  33 ≤ c.toNat && c.toNat ≤ 126 && !isAsciiAlnum c

/-- Lexer failures: `escape c` is the `std::logic_error`
"Unrecognized escape sequence" thrown on `\c`, `eol` the
"Unexpected end of line" thrown on a raw newline or carriage return inside a
string literal, `overflow` the `std::out_of_range` thrown by `std::stoi`,
and `fuelOut` exhaustion of the modelling fuel (standing for a lexer run
still looping). -/
inductive LexErr where
  | escape (c : Char)
  | eol
  | overflow
  | fuelOut
deriving DecidableEq

/-- `Lexer::ParseIndent` (part_000 lines 170-201).  The leading spaces are
consumed; when the line then starts with `\n` or `#` (blank or comment line)
nothing is emitted and the running space count is kept; otherwise
`(spaces - space_count_) / 2` (C++ `int` division, truncating toward zero)
copies of `Indent` or `Dedent` are emitted and the running count becomes
`spaces`.  Reaching end of input while counting spaces leaves an empty
stream, and the end-of-input peek is neither `\n` nor `#`, so the indent
computation still runs. -/
def ParseIndent (toks : List Tok) (sc : Int) (s : List Char) :
    List Tok × Int × List Char :=
  let spaces := (s.takeWhile (fun ch => ch == ' ')).length
  let rest := s.drop spaces
  if rest.head? = some '\n' ∨ rest.head? = some '#' then (toks, sc, rest)
  else
    let delta := Int.tdiv ((spaces : Int) - sc) 2
    (toks ++ List.replicate delta.natAbs (if 0 < delta then Tok.indent else Tok.dedent),
      (spaces : Int), rest)

/-- `Lexer::ParseNewLine` (part_000 lines 156-168): on `\n`, emit `Newline`
unless the token list is empty or already ends in `Newline`, then run the
indent procedure; any other character is put back. -/
def ParseNewLine (toks : List Tok) (sc : Int) (s : List Char) :
    List Tok × Int × List Char :=
  match s with
  | [] => (toks, sc, s)
  | cc :: rest =>
    if cc = '\n' then
      ParseIndent
        (if toks ≠ [] ∧ toks.getLast? ≠ some Tok.newline then toks ++ [Tok.newline]
         else toks) sc rest
    else (toks, sc, s)

/-- The escape table of `Lexer::ParseStrings`. -/
def escMap : Char → Option Char
  | 'n' => some '\n'
  | 't' => some '\t'
  | 'r' => some '\r'
  | '"' => some '"'
  | '\'' => some '\''
  | '\\' => some '\\'
  | _ => Option.none

/-- The scanning loop of `Lexer::ParseStrings` (part_000 lines 210-244):
stop at the closing quote; translate escape sequences, throwing on an
unrecognized one (a lone backslash at end of input reads nothing and the
loop then stops); throw on a raw newline or carriage return; at end of
input the loop simply stops with the content read so far. -/
def scanString (openChar : Char) : List Char → String → Except LexErr (String × List Char)
  | [], acc => .ok (acc, [])
  | cc :: rest, acc =>
    if cc = openChar then .ok (acc, rest)
    else if cc = '\\' then
      match rest with
      | [] => .ok (acc, [])
      | e :: rest2 =>
        match escMap e with
        | some ch => scanString openChar rest2 (acc.push ch)
        | Option.none => .error (.escape e)
    else if cc = '\n' ∨ cc = '\r' then .error .eol
    else scanString openChar rest (acc.push cc)

/-- `Lexer::ParseStrings` (part_000 lines 203-249): after the scanning loop
ends — by the closing quote or by end of input — a `String` token holding
the scanned content is emitted. -/
def ParseStrings (toks : List Tok) (sc : Int) (s : List Char) :
    Except LexErr (List Tok × Int × List Char) :=
  match s with
  | [] => .ok (toks, sc, s)
  | cc :: rest =>
    if cc = '\'' ∨ cc = '"' then
      match scanString cc rest "" with
      | .ok (strv, s') => .ok (toks ++ [Tok.str strv], sc, s')
      | .error e => .error e
    else .ok (toks, sc, s)

/-- The keyword table `keywords_`.  Modelled from the spec: the table lives
in the lexer header, which is absent from the sources; §4.1 lists
`class return if else def print and or not None True False`. -/
def keywordOrId (w : String) : Tok :=
  if w = "class" then .kwClass
  else if w = "return" then .kwReturn
  else if w = "if" then .kwIf
  else if w = "else" then .kwElse
  else if w = "def" then .kwDef
  else if w = "print" then .kwPrint
  else if w = "and" then .kwAnd
  else if w = "or" then .kwOr
  else if w = "not" then .kwNot
  else if w = "None" then .kwNone
  else if w = "True" then .kwTrue
  else if w = "False" then .kwFalse
  else .id w

/-- `Lexer::ParseId` (part_000 lines 269-289). -/
def ParseId (toks : List Tok) (sc : Int) (s : List Char) :
    List Tok × Int × List Char :=
  match s.head? with
  | some cc =>
    if isAsciiAlpha cc || cc == '_' then
      let idChars := s.takeWhile (fun ch => isAsciiAlnum ch || ch == '_')
      (toks ++ [keywordOrId (String.mk idChars)], sc, s.drop idChars.length)
    else (toks, sc, s)
  | Option.none => (toks, sc, s)

/-- `Lexer::ParseComparisonOperators` (part_000 lines 135-154). -/
def ParseComparisonOperators (toks : List Tok) (sc : Int) (s : List Char) :
    List Tok × Int × List Char :=
  match s with
  | [] => (toks, sc, s)
  | cc :: rest =>
    if cc = '=' ∧ rest.head? = some '=' then (toks ++ [Tok.eq], sc, rest.tail)
    else if cc = '>' ∧ rest.head? = some '=' then (toks ++ [Tok.greaterOrEq], sc, rest.tail)
    else if cc = '<' ∧ rest.head? = some '=' then (toks ++ [Tok.lessOrEq], sc, rest.tail)
    else if cc = '!' ∧ rest.head? = some '=' then (toks ++ [Tok.notEq], sc, rest.tail)
    else (toks, sc, s)

/-- `Lexer::SkipComment` (part_000 lines 297-310): `getline` consumes the
comment through the newline and the newline is put back when one was found
before end of input. -/
def SkipComment (s : List Char) : List Char :=
  match s with
  | [] => s
  | cc :: rest =>
    if cc = '#' then rest.dropWhile (fun ch => ch != '\n')
    else s

/-- `Lexer::ParseChar` (part_000 lines 121-133). -/
def ParseChar (toks : List Tok) (sc : Int) (s : List Char) :
    List Tok × Int × List Char :=
  match s with
  | [] => (toks, sc, s)
  | cc :: rest =>
    if isPunct cc then
      if cc = '#' then (toks, sc, SkipComment s)
      else (toks ++ [Tok.chr cc], sc, rest)
    else (toks, sc, s)

/-- The decimal value of a digit string. -/
def digitsToNat (ds : List Char) : Nat :=
  ds.foldl (fun a cc => a * 10 + (cc.toNat - 48)) 0

/-- `Lexer::ParseNumbers` (part_000 lines 251-267); `std::stoi` throws
`std::out_of_range` above `INT_MAX`. -/
def ParseNumbers (toks : List Tok) (sc : Int) (s : List Char) :
    Except LexErr (List Tok × Int × List Char) :=
  match s.head? with
  | some cc =>
    if isAsciiDigit cc then
      let digits := s.takeWhile isAsciiDigit
      let v := digitsToNat digits
      if 2147483647 < v then .error .overflow
      else .ok (toks ++ [Tok.number (v : Int)], sc, s.drop digits.length)
    else .ok (toks, sc, s)
  | Option.none => .ok (toks, sc, s)

/-- `Lexer::SkipSpaces` (part_000 lines 291-295). -/
def SkipSpaces (s : List Char) : List Char :=
  s.dropWhile (fun ch => ch == ' ')

/-- The while loop of `Lexer::ParseTokens` (part_000 lines 100-111): while
input remains, run the seven sub-scanners in source order.  The fuel bounds
the iteration count: one iteration can consume no input (a bare carriage
return outside a string), in which case the C++ loops forever. -/
def LexLoop : Nat → List Tok → Int → List Char → Except LexErr (List Tok × Int × List Char)
  | 0, _, _, _ => .error .fuelOut
  | fuelN + 1, toks, sc, s =>
    match s with
    | [] => .ok (toks, sc, s)
    | _ :: _ =>
      let (t1, sc1, s1) := ParseNewLine toks sc s
      match ParseStrings t1 sc1 s1 with
      | .error e => .error e
      | .ok (t2, sc2, s2) =>
        let (t3, sc3, s3) := ParseId t2 sc2 s2
        let (t4, sc4, s4) := ParseComparisonOperators t3 sc3 s3
        let (t5, sc5, s5) := ParseChar t4 sc4 s4
        match ParseNumbers t5 sc5 s5 with
        | .error e => .error e
        | .ok (t6, sc6, s6) => LexLoop fuelN t6 sc6 (SkipSpaces s6)

/-- `Lexer::ParseTokens` (part_000 lines 95-119): run the scanning loop;
then, if any tokens were emitted and the last is neither `Newline` nor
`Dedent`, append a `Newline`; finally append `Eof`. -/
def ParseTokens (fuel : Nat) (input : List Char) : Except LexErr (List Tok) :=
  match LexLoop fuel [] 0 input with
  | .error e => .error e
  | .ok (toks, _, _) =>
    .ok ((if toks ≠ [] ∧ toks.getLast? ≠ some Tok.newline ∧ toks.getLast? ≠ some Tok.dedent
          then toks ++ [Tok.newline]
          else toks) ++ [Tok.eof])

end Mython

/-- C8: `IsTrue` satisfies: empty holder is false; a `Bool` is its stored
value; a `Number` is true iff nonzero; a `String` is true iff non-empty; a
`ClassInstance` and a `Class` are always false. -/
theorem C8_isTrue_truthiness :
    Mython.IsTrue Mython.Value.none = false
    ∧ (∀ b : Bool, Mython.IsTrue (Mython.Value.bool b) = b)
    ∧ (∀ n : Int, (Mython.IsTrue (Mython.Value.num n) = true ↔ n ≠ 0))
    ∧ (∀ s : String, (Mython.IsTrue (Mython.Value.str s) = true ↔ s ≠ ""))
    ∧ (∀ i : Nat, Mython.IsTrue (Mython.Value.ref i) = false)
    ∧ (∀ k : Nat, Mython.IsTrue (Mython.Value.classVal k) = false) := by
  refine ⟨rfl, ?_, ?_, ?_, fun i => rfl, fun k => rfl⟩
  · intro b
    cases b <;> rfl
  · intro n
    simp [Mython.IsTrue, Mython.tryAsBool, Mython.tryAsNumber]
  · intro s
    simp [Mython.IsTrue, Mython.tryAsBool, Mython.tryAsNumber, Mython.tryAsString]
    rw [← Bool.not_eq_true, String.isEmpty_iff]

/-- C1, counterexample: in the chain `C -> P -> G` where method `m` is
declared only in the grandparent `G`, `C.get_method("m")` returns null —
`Class::Class` copies only the parent's *declared* methods, not the parent's
flattened index — even though `P.get_method("m")` does resolve it. -/
theorem C1_grandparent_method_not_found :
    (Mython.Class.mk "C" [] (some (Mython.Class.mk "P" []
        (some (Mython.Class.mk "G" [⟨"m", [], .const .none⟩] Option.none))))).GetMethod "m"
      = Option.none
    ∧ (Mython.Class.mk "P" []
        (some (Mython.Class.mk "G" [⟨"m", [], .const .none⟩] Option.none))).GetMethod "m"
      = some ⟨"m", [], .const .none⟩ :=
  ⟨rfl, rfl⟩

/-- C1, amended: a class's flattened method index contains exactly the union
of its parent's *declared* method list and its own declared methods, with
own methods winning on name collisions (and, within one list, the
last declaration of a name winning, as for repeated `std::map` insertion);
a parentless class indexes exactly its own declared methods.  Methods that
the parent only inherited — declared solely in a grandparent — are absent. -/
theorem C1_flattened_index_parent_declared :
    (∀ (nm : String) (ms : List Mython.Method) (p : Mython.Class) (key : String),
      (Mython.Class.mk nm ms (some p)).GetMethod key
        = (Mython.lastDecl ms key).or (Mython.lastDecl p.methods key))
    ∧ (∀ (nm : String) (ms : List Mython.Method) (key : String),
      (Mython.Class.mk nm ms Option.none).GetMethod key = Mython.lastDecl ms key) := by
  constructor
  · intro nm ms p key
    show Mython.lastDecl ((Mython.Class.mk nm ms (some p)).indexInsertions) key = _
    unfold Mython.Class.indexInsertions Mython.lastDecl
    simp only [Mython.Class.parent, Mython.Class.methods, List.reverse_append,
      List.find?_append]
  · intro nm ms key
    rfl

/-- C2: at the failing input — a `MethodCall` whose receiver expression
evaluates to an empty holder, or to a non-instance — `MethodCall::Execute`
computes `TryAs<ClassInstance>` (null), still evaluates the argument list,
and then invokes `Call` through the null pointer: undefined behavior
(`Exc.crash`), not the specified "return None / fail cleanly".  The null
check at the top of `MethodCall::Execute` tests the receiver *statement
pointer* `object_`, not the evaluated receiver: only a null receiver
statement yields `None`. -/
theorem C2_none_receiver_dereferences_null :
    Mython.Execute 2 (.methodCall (some (.const .none)) "m" []) [] []
      = (.exc .crash, [], [])
    ∧ Mython.Execute 2 (.methodCall (some (.const (.num 1))) "m" []) [] []
      = (.exc .crash, [], [])
    ∧ Mython.Execute 2 (.methodCall Option.none "m" []) [] []
      = (.ok .none, [], []) := by
  refine ⟨?_, ?_, ?_⟩ <;> simp [Mython.Execute, Mython.ExecuteArgs]

/-- C4, counterexample: with closure `{x: Number 1, y: Number 2}`,
`VariableValue(["x","y"])` does **not** fail although the cursor after `x`
holds a non-instance: when the fetched value is not a `ClassInstance` the
loop keeps the current map, so `y` is looked up in the same closure and the
chain yields `Number 2`. -/
theorem C4_non_instance_cursor_no_failure :
    (Mython.Execute 1 (.variableValue ["x", "y"])
        [("x", .num 1), ("y", .num 2)] []).1 = .ok (.num 2) := by
  simp [Mython.Execute, Mython.variableValueRun, Mython.varLoop, Mython.clookup]

/-- C4, amended: `VariableValue([v0, …, vn])` looks `v0` up in the current
closure; after each lookup, when the fetched value is a `ClassInstance` the
cursor map becomes that instance's field map, and **otherwise the cursor map
is left unchanged and the next name is looked up in the same map** (a
non-instance cursor is not an error); a name missing from the current map
fails with "Invalid argument name"; an empty name list fails with
"No arguments specified"; otherwise the last fetched value is returned. -/
theorem C4_dotted_resolution :
    (∀ (f : Nat) (c : Mython.Closure) (h : Mython.Heap),
      Mython.Execute (f + 1) (.variableValue []) c h
        = (.exc (.err "No arguments specified"), c, h))
    ∧ (∀ (f : Nat) (ids : List String) (c : Mython.Closure) (h : Mython.Heap),
      ids ≠ [] →
      Mython.Execute (f + 1) (.variableValue ids) c h
        = (Mython.varLoop h ids c .none, c, h))
    ∧ (∀ (h : Mython.Heap) (cur : Mython.Closure) (prev : Mython.Value),
      Mython.varLoop h [] cur prev = .ok prev)
    ∧ (∀ (h : Mython.Heap) (name : String) (rest : List String)
        (cur : Mython.Closure) (prev : Mython.Value),
      Mython.clookup cur name = Option.none →
      Mython.varLoop h (name :: rest) cur prev = .exc (.err "Invalid argument name"))
    ∧ (∀ (h : Mython.Heap) (name : String) (rest : List String)
        (cur : Mython.Closure) (prev : Mython.Value) (i : Nat) (inst : Mython.InstData),
      Mython.clookup cur name = some (.ref i) → List.get? h i = some inst →
      Mython.varLoop h (name :: rest) cur prev
        = Mython.varLoop h rest inst.fields (.ref i))
    ∧ (∀ (h : Mython.Heap) (name : String) (rest : List String)
        (cur : Mython.Closure) (prev v : Mython.Value),
      Mython.clookup cur name = some v → (∀ i, v ≠ Mython.Value.ref i) →
      Mython.varLoop h (name :: rest) cur prev = Mython.varLoop h rest cur v) := by
  refine ⟨fun f c h => ?_, fun f ids c h hne => ?_, fun h cur prev => rfl,
    fun h name rest cur prev hlk => ?_, fun h name rest cur prev i inst hlk hget => ?_,
    fun h name rest cur prev v hlk hni => ?_⟩
  · simp [Mython.Execute, Mython.variableValueRun]
  · cases ids with
    | nil => exact absurd rfl hne
    | cons a as => simp [Mython.Execute, Mython.variableValueRun]
  · simp [Mython.varLoop, hlk]
  · rw [List.get?_eq_getElem?] at hget
    simp [Mython.varLoop, hlk, hget]
  · cases v with
    | ref i => exact absurd rfl (hni i)
    | none => simp [Mython.varLoop, hlk]
    | num n => simp [Mython.varLoop, hlk]
    | str s => simp [Mython.varLoop, hlk]
    | bool b => simp [Mython.varLoop, hlk]
    | classVal k => simp [Mython.varLoop, hlk]

/-- C4 witness: the amended theorem applied at concrete inputs — a
one-name chain reduces to the loop, and a missing name fails. -/
theorem C4_dotted_resolution_witness :
    Mython.Execute 1 (.variableValue ["x"]) [("x", Mython.Value.num 3)] []
      = (Mython.varLoop [] ["x"] [("x", Mython.Value.num 3)] .none,
         [("x", Mython.Value.num 3)], [])
    ∧ Mython.varLoop [] ["a"] [("b", Mython.Value.num 0)] .none
      = .exc (.err "Invalid argument name") :=
  ⟨C4_dotted_resolution.2.1 0 ["x"] [("x", Mython.Value.num 3)] [] (by simp),
   C4_dotted_resolution.2.2.2.1 [] "a" [] [("b", Mython.Value.num 0)] .none rfl⟩

/-- C5, counterexample: an operand that **evaluates** to an empty holder
does not produce the "null operands are not supported" error:
`Or(None, True)` succeeds with `Bool true` (truthiness of `None` is false),
and `Add(None, 1)` fails with the *type* error instead. -/
theorem C5_none_value_operand_not_null_error :
    (Mython.Execute 2 (.orOp (some (.const .none)) (some (.const (.bool true)))) [] []).1
      = .ok (.bool true)
    ∧ (Mython.Execute 2 (.add (some (.const .none)) (some (.const (.num 1)))) [] []).1
      = .exc (.err "Wrong types for add operation") := by
  constructor <;>
    simp [Mython.Execute, Mython.IsTrue, Mython.tryAsBool, Mython.tryAsNumber,
      Mython.tryAsString]

/-- C5, amended: the "null operands are not supported" error of the binary
arithmetic and logical operators is raised when an operand *statement*
is absent (a null AST child pointer, `lhs_`/`rhs_`), before anything is
evaluated; an operand whose *value* is `None` is not reported by this error
(arithmetic falls through to its wrong-types error and the logical
operators treat `None` as false). -/
theorem C5_null_operand_statement_error :
    ∀ (f : Nat) (lhs rhs : Option Mython.Stmt) (c : Mython.Closure) (h : Mython.Heap),
      lhs = Option.none ∨ rhs = Option.none →
      Mython.Execute (f + 1) (.add lhs rhs) c h
          = (.exc (.err "null operands are not supported"), c, h)
      ∧ Mython.Execute (f + 1) (.sub lhs rhs) c h
          = (.exc (.err "null operands are not supported"), c, h)
      ∧ Mython.Execute (f + 1) (.mult lhs rhs) c h
          = (.exc (.err "null operands are not supported"), c, h)
      ∧ Mython.Execute (f + 1) (.div lhs rhs) c h
          = (.exc (.err "null operands are not supported"), c, h)
      ∧ Mython.Execute (f + 1) (.orOp lhs rhs) c h
          = (.exc (.err "null operands are not supported"), c, h)
      ∧ Mython.Execute (f + 1) (.andOp lhs rhs) c h
          = (.exc (.err "null operands are not supported"), c, h) := by
  intro f lhs rhs c h hor
  rcases hor with h1 | h1 <;> subst h1
  · cases rhs <;> exact ⟨by simp [Mython.Execute], by simp [Mython.Execute],
      by simp [Mython.Execute], by simp [Mython.Execute], by simp [Mython.Execute],
      by simp [Mython.Execute]⟩
  · cases lhs <;> exact ⟨by simp [Mython.Execute], by simp [Mython.Execute],
      by simp [Mython.Execute], by simp [Mython.Execute], by simp [Mython.Execute],
      by simp [Mython.Execute]⟩

/-- C5 witness: the amended theorem applied with a null left operand. -/
theorem C5_null_operand_statement_error_witness :
    Mython.Execute 1 (.add Option.none (some (.const .none))) [] []
      = (.exc (.err "null operands are not supported"), [], []) :=
  (C5_null_operand_statement_error 0 Option.none (some (.const .none)) [] []
    (Or.inl rfl)).1

/-- C6: `Return(e)` evaluates `e` and throws the resulting holder; a
`MethodBody` whose body completes normally returns `None`, one whose body
throws a holder catches it and returns that holder, and every non-return
exception passes through `MethodBody` unchanged; when a `Return` sits under
two nested `MethodBody` boundaries, the innermost one converts it (the
outermost then sees a normal completion and returns `None`). -/
theorem C6_return_nonlocal_exit :
    ∀ (f : Nat) (e b : Mython.Stmt) (c c' : Mython.Closure) (h h' : Mython.Heap)
      (v : Mython.Value) (ex : Mython.Exc),
      (Mython.Execute f e c h = (.ok v, c', h') →
        Mython.Execute (f + 1) (.ret e) c h = (.exc (.retVal v), c', h'))
      ∧ (Mython.Execute f b c h = (.ok v, c', h') →
        Mython.Execute (f + 1) (.methodBody b) c h = (.ok Mython.Value.none, c', h'))
      ∧ (Mython.Execute f b c h = (.exc (.retVal v), c', h') →
        Mython.Execute (f + 1) (.methodBody b) c h = (.ok v, c', h'))
      ∧ (Mython.Execute f b c h = (.exc ex, c', h') → ex.isRet = false →
        Mython.Execute (f + 1) (.methodBody b) c h = (.exc ex, c', h'))
      ∧ (Mython.Execute f e c h = (.ok v, c', h') →
        Mython.Execute (f + 2) (.methodBody (.ret e)) c h = (.ok v, c', h')
        ∧ Mython.Execute (f + 3) (.methodBody (.methodBody (.ret e))) c h
            = (.ok Mython.Value.none, c', h')) := by
  intro f e b c c' h h' v ex
  refine ⟨fun hx => ?_, fun hx => ?_, fun hx => ?_, fun hx hnr => ?_, fun hx => ?_⟩
  · simp [Mython.Execute, hx]
  · simp [Mython.Execute, hx]
  · simp [Mython.Execute, hx]
  · cases ex with
    | retVal w => simp [Mython.Exc.isRet] at hnr
    | err m => simp [Mython.Execute, hx]
    | crash => simp [Mython.Execute, hx]
    | fuel => simp [Mython.Execute, hx]
  · have h1 : Mython.Execute (f + 1) (.ret e) c h = (.exc (.retVal v), c', h') := by
      simp [Mython.Execute, hx]
    have h2 : Mython.Execute (f + 2) (.methodBody (.ret e)) c h = (.ok v, c', h') := by
      have : f + 2 = (f + 1) + 1 := rfl
      rw [this]
      simp [Mython.Execute, h1]
    have h3 : Mython.Execute (f + 3) (.methodBody (.methodBody (.ret e))) c h
        = (.ok Mython.Value.none, c', h') := by
      have : f + 3 = (f + 2) + 1 := rfl
      rw [this]
      simp [Mython.Execute, h2]
    exact ⟨h2, h3⟩

/-- C6 witness: the nested-`MethodBody` conjunct applied to
`return 42` with one and two boundaries. -/
theorem C6_return_nonlocal_exit_witness :
    Mython.Execute 3 (.methodBody (.ret (.const (.num 42)))) [] []
      = (.ok (.num 42), [], [])
    ∧ Mython.Execute 4 (.methodBody (.methodBody (.ret (.const (.num 42))))) [] []
      = (.ok Mython.Value.none, [], []) :=
  (C6_return_nonlocal_exit 1 (.const (.num 42)) (.const (.num 42)) [] [] [] []
    (.num 42) .crash).2.2.2.2 (by simp [Mython.Execute])

/-- C7: with both operand statements present, `And` and `Or` evaluate the
left operand and then always the right operand — the right operand's state
changes and exceptions are observed even when the left operand's truthiness
already decides the result — and on success produce the `Bool` conjunction
resp. disjunction of the two truthiness values. -/
theorem C7_and_or_both_evaluated :
    ∀ (f : Nat) (l r : Mython.Stmt) (c c1 c2 : Mython.Closure)
      (h h1 h2 : Mython.Heap) (lv rv : Mython.Value) (e : Mython.Exc),
      (Mython.Execute f l c h = (.ok lv, c1, h1) →
       Mython.Execute f r c1 h1 = (.ok rv, c2, h2) →
        Mython.Execute (f + 1) (.andOp (some l) (some r)) c h
            = (.ok (.bool (Mython.IsTrue lv && Mython.IsTrue rv)), c2, h2)
        ∧ Mython.Execute (f + 1) (.orOp (some l) (some r)) c h
            = (.ok (.bool (Mython.IsTrue lv || Mython.IsTrue rv)), c2, h2))
      ∧ (Mython.Execute f l c h = (.ok lv, c1, h1) →
         Mython.Execute f r c1 h1 = (.exc e, c2, h2) →
        Mython.Execute (f + 1) (.andOp (some l) (some r)) c h = (.exc e, c2, h2)
        ∧ Mython.Execute (f + 1) (.orOp (some l) (some r)) c h = (.exc e, c2, h2)) := by
  intro f l r c c1 c2 h h1 h2 lv rv e
  refine ⟨fun hl hr => ⟨?_, ?_⟩, fun hl hr => ⟨?_, ?_⟩⟩
  · simp only [Mython.Execute, hl, hr]
    cases Mython.IsTrue lv <;> cases Mython.IsTrue rv <;> simp
  · simp only [Mython.Execute, hl, hr]
    cases Mython.IsTrue lv <;> cases Mython.IsTrue rv <;> simp
  · simp [Mython.Execute, hl, hr]
  · simp [Mython.Execute, hl, hr]

/-- C7 witness: both conjuncts applied to concrete operands,
`And(True, False)` and `Or(True, False)`. -/
theorem C7_and_or_both_evaluated_witness :
    Mython.Execute 2 (.andOp (some (.const (.bool true))) (some (.const (.bool false)))) [] []
      = (.ok (.bool (Mython.IsTrue (.bool true) && Mython.IsTrue (.bool false))), [], [])
    ∧ Mython.Execute 2 (.orOp (some (.const (.bool true))) (some (.const (.bool false)))) [] []
      = (.ok (.bool (Mython.IsTrue (.bool true) || Mython.IsTrue (.bool false))), [], []) :=
  (C7_and_or_both_evaluated 1 (.const (.bool true)) (.const (.bool false)) [] [] [] [] [] []
    (.bool true) (.bool false) .crash).1 (by simp [Mython.Execute]) (by simp [Mython.Execute])

/-- C8 witness: the truthiness theorem applied at `Number 3` and at the
empty string. -/
theorem C8_isTrue_truthiness_witness :
    Mython.IsTrue (Mython.Value.num 3) = true
    ∧ Mython.IsTrue (Mython.Value.str "") ≠ true :=
  ⟨(C8_isTrue_truthiness.2.2.1 3).mpr (by decide),
   fun hc => (C8_isTrue_truthiness.2.2.2.1 "").mp hc rfl⟩

/-- C10: every successful execution of a `NewInstance` node returns a
holder to the node's single embedded instance — `Value.ref i` for the
node's cell `i` — so two executions of one node yield the identical object;
concretely, after `x = NewInstance; x.f = 7; y = NewInstance` on one node,
`x` and `y` hold the same reference and `y.f` reads back the `7` written
through `x`. -/
theorem C10_newInstance_shared_identity :
    (∀ (f i : Nat) (args : List Mython.Stmt) (c c' : Mython.Closure)
       (h h' : Mython.Heap) (v : Mython.Value),
      Mython.Execute f (.newInstance i args) c h = (.ok v, c', h') → v = .ref i)
    ∧ (let r := Mython.Execute 5
        (.compound [.assignment "x" (.newInstance 0 []),
          .fieldAssignment ["x"] "f" (.const (.num 7)),
          .assignment "y" (.newInstance 0 [])])
        [] [⟨Mython.Class.mk "A" [] Option.none, []⟩]
       Mython.clookup r.2.1 "x" = some (.ref 0)
       ∧ Mython.clookup r.2.1 "y" = some (.ref 0)
       ∧ (Mython.Execute 1 (.variableValue ["y", "f"]) r.2.1 r.2.2).1
           = .ok (.num 7)) := by
  constructor
  · intro f i args c c' h h' v hx
    cases f with
    | zero => simp [Mython.Execute] at hx
    | succ n =>
      rw [show (n + 1 : Nat) = n + 1 from rfl] at hx
      simp only [Mython.Execute] at hx
      rcases hA : Mython.ExecuteArgs n args c h with ⟨ao, c1, h1⟩
      rw [hA] at hx
      cases ao with
      | exc e => simp at hx
      | ok vs =>
        dsimp only at hx
        rcases hG : List.get? h1 i with _ | inst
        · rw [hG] at hx
          simp at hx
        · rw [hG] at hx
          dsimp only at hx
          by_cases hM : (inst.cls.HasMethod "__init__" args.length) = true
          · rw [if_pos hM] at hx
            rcases hC : Mython.Call n i "__init__" vs c1 h1 with ⟨co, c2, h2⟩
            rw [hC] at hx
            cases co with
            | ok w =>
              simp only [Prod.mk.injEq] at hx
              cases hx.1
              rfl
            | exc e => simp at hx
          · rw [if_neg hM] at hx
            simp only [Prod.mk.injEq] at hx
            cases hx.1
            rfl
  · refine ⟨?_, ?_, ?_⟩ <;>
      simp [Mython.Execute, Mython.ExecuteArgs, Mython.ExecuteSeq, Mython.Call,
        Mython.variableValueRun, Mython.varLoop, Mython.clookup, Mython.cupdate,
        Mython.Class.HasMethod, Mython.Class.GetMethod, Mython.lastDecl,
        Mython.Class.indexInsertions, Mython.Class.methods, Mython.Class.parent]

/-- C10 witness: the identity conjunct applied to one concrete execution of
a `NewInstance` node for a method-less class. -/
theorem C10_newInstance_shared_identity_witness :
    Mython.Value.ref 0 = Mython.Value.ref 0 :=
  C10_newInstance_shared_identity.1 1 0 [] [] []
    [⟨Mython.Class.mk "A" [] Option.none, []⟩]
    [⟨Mython.Class.mk "A" [] Option.none, []⟩] (.ref 0)
    (by simp [Mython.Execute, Mython.ExecuteArgs, Mython.Class.HasMethod,
      Mython.Class.GetMethod, Mython.lastDecl, Mython.Class.indexInsertions,
      Mython.Class.methods, Mython.Class.parent])

/-- C3, counterexample: a string literal opened with `"` that reaches end of
input without its closing quote does **not** fail — the scanning loop of
`Lexer::ParseStrings` exits when `input.get` fails and the `String` token is
emitted unconditionally after the loop — so `"a` lexes to
`[String "a", Newline, Eof]`. -/
theorem C3_unterminated_string_no_error :
    Mython.ParseTokens 10 ['"', 'a'] = .ok [.str "a", .newline, .eof] := rfl

/-- C3, amended: reaching end of input inside a string literal ends the scan
*successfully* with the content read so far (a `String` token is emitted for
the unterminated literal; there is no "unterminated string" error), while an
unrecognized escape sequence and an unescaped newline or carriage return do
fail immediately with a lexical error, which aborts the whole lex pass. -/
theorem C3_string_scanner_failure_semantics :
    (∀ (quote : Char) (acc : String),
      Mython.scanString quote [] acc = .ok (acc, []))
    ∧ (∀ (quote e : Char) (rest : List Char) (acc : String),
      Mython.escMap e = Option.none → quote ≠ '\\' →
      Mython.scanString quote ('\\' :: e :: rest) acc = .error (.escape e))
    ∧ (∀ (quote : Char) (rest : List Char) (acc : String),
      quote ≠ '\n' →
      Mython.scanString quote ('\n' :: rest) acc = .error .eol)
    ∧ (∀ (quote : Char) (rest : List Char) (acc : String),
      quote ≠ '\r' → quote ≠ '\\' →
      Mython.scanString quote ('\r' :: rest) acc = .error .eol)
    ∧ Mython.ParseTokens 10 ['"', 'a', '\\', 'q'] = .error (.escape 'q')
    ∧ Mython.ParseTokens 10 ['"', 'a', '\n', 'b'] = .error .eol := by
  refine ⟨fun quote acc => rfl, fun quote e rest acc hesc hq => ?_,
    fun quote rest acc hq => ?_, fun quote rest acc hq hb => ?_, rfl, rfl⟩
  · simp [Mython.scanString, Ne.symm hq, hesc]
  · have h1 : ¬('\n' = quote) := Ne.symm hq
    unfold Mython.scanString
    simp [h1]
  · have h1 : ¬('\r' = quote) := Ne.symm hq
    unfold Mython.scanString
    simp [h1]

/-- C3 witness: the amended theorem's escape-failure conjunct applied at a
concrete escape character. -/
theorem C3_string_scanner_failure_semantics_witness :
    Mython.scanString '"' ['\\', 'q'] "ab" = .error (.escape 'q') :=
  C3_string_scanner_failure_semantics.2.1 '"' 'q' [] "ab" rfl (by decide)

/-- C9: whenever a lex pass completes, the produced token sequence is some
list `ts` followed by `Eof`, where `ts` is empty (the stream is length one)
or ends in `Newline` or `Dedent`. -/
theorem C9_eof_termination :
    ∀ (fuel : Nat) (input : List Char) (toks : List Mython.Tok),
      Mython.ParseTokens fuel input = .ok toks →
      ∃ ts : List Mython.Tok,
        toks = ts ++ [Mython.Tok.eof]
        ∧ (ts = [] ∨ ts.getLast? = some Mython.Tok.newline
            ∨ ts.getLast? = some Mython.Tok.dedent) := by
  intro fuel input toks hx
  unfold Mython.ParseTokens at hx
  rcases hL : Mython.LexLoop fuel [] 0 input with e | ⟨ts0, sc, s⟩
  · rw [hL] at hx
    exact absurd hx (by simp)
  · rw [hL] at hx
    dsimp only at hx
    by_cases hc : ts0 ≠ [] ∧ ts0.getLast? ≠ some Mython.Tok.newline
        ∧ ts0.getLast? ≠ some Mython.Tok.dedent
    · rw [if_pos hc] at hx
      refine ⟨ts0 ++ [Mython.Tok.newline], ?_, Or.inr (Or.inl ?_)⟩
      · cases hx
        rfl
      · exact List.getLast?_concat ts0
    · rw [if_neg hc] at hx
      push_neg at hc
      refine ⟨ts0, by cases hx; rfl, ?_⟩
      by_cases h0 : ts0 = []
      · exact Or.inl h0
      · rcases Decidable.em (ts0.getLast? = some Mython.Tok.newline) with hn | hn
        · exact Or.inr (Or.inl hn)
        · exact Or.inr (Or.inr (hc h0 hn))

/-- C9 witness: the invariant instantiated on the lex pass of `x=1\n`. -/
theorem C9_eof_termination_witness :
    ∃ ts : List Mython.Tok,
      [Mython.Tok.id "x", Mython.Tok.chr '=', Mython.Tok.number 1,
        Mython.Tok.newline, Mython.Tok.eof] = ts ++ [Mython.Tok.eof]
      ∧ (ts = [] ∨ ts.getLast? = some Mython.Tok.newline
          ∨ ts.getLast? = some Mython.Tok.dedent) :=
  C9_eof_termination 10 ['x', '=', '1', '\n']
    [Mython.Tok.id "x", Mython.Tok.chr '=', Mython.Tok.number 1,
      Mython.Tok.newline, Mython.Tok.eof] rfl
